import Mathlib

/-!
Shallow embedding of the core data model and operations of the rust-teos
watchtower (crates `teos-common`, `teos`, `watchtower-plugin`), together
with proofs of the specified properties.

Bytes are modelled as `Fin 256`, byte strings as `List Byte`, and Rust's
fallible operations as `Option`/`Except`.
-/

/-- A single byte (`u8`). -/
abbrev Byte := Fin 256

/-- A Bitcoin transaction id (`bitcoin::Txid`): exactly 32 bytes. -/
abbrev Txid := {l : List Byte // l.length = 32}

/-- `LOCATOR_LEN` from `teos-common/src/appointment.rs`. -/
def LOCATOR_LEN : Nat := 16

/-- `Locator` from `teos-common/src/appointment.rs`: a 16-byte value
(`[u8; LOCATOR_LEN]`). -/
abbrev Locator := {l : List Byte // l.length = LOCATOR_LEN}

/-- `Locator::new(txid)`: truncates the txid to its first `LOCATOR_LEN`
bytes (`txid[..LOCATOR_LEN].try_into().unwrap()`). -/
def Locator.new (txid : Txid) : Locator :=
  ⟨txid.val.take LOCATOR_LEN, by
    have h := txid.property
    simp [List.length_take, h, LOCATOR_LEN]⟩

/-- `Locator::serialize`: the byte representation of a locator. -/
def Locator.serialize (l : Locator) : List Byte := l.val

/-- `Locator::deserialize(data)`: builds a locator from bytes; fails
(`TryFromSliceError`) exactly when `data` is not 16 bytes long. -/
def Locator.deserialize (data : List Byte) : Option Locator :=
  if h : data.length = LOCATOR_LEN then some ⟨data, h⟩ else none

/-- `Nat.digitChar`-based hex digit table is used for encoding; this is
the inverse used by `hex::decode`: accepts `0-9`, `a-f`, `A-F`. -/
def hexDigitVal (c : Char) : Option (Fin 16) :=
  let n := c.toNat
  if 48 ≤ n ∧ n ≤ 57 then some ⟨(n - 48) % 16, Nat.mod_lt _ (by norm_num)⟩
  else if 97 ≤ n ∧ n ≤ 102 then some ⟨(n - 87) % 16, Nat.mod_lt _ (by norm_num)⟩
  else if 65 ≤ n ∧ n ≤ 70 then some ⟨(n - 55) % 16, Nat.mod_lt _ (by norm_num)⟩
  else none

/-- `hex::encode`: lowercase hex, two digits per byte. -/
def hexEncode : List Byte → List Char
  | [] => []
  | b :: bs => Nat.digitChar (b.val / 16) :: Nat.digitChar (b.val % 16) :: hexEncode bs

/-- `hex::decode`: fails on odd length or a non-hex character. -/
def hexDecode : List Char → Option (List Byte)
  | [] => some []
  | [_] => none
  | c1 :: c2 :: rest =>
    match hexDigitVal c1, hexDigitVal c2, hexDecode rest with
    | some h, some l, some bs =>
      some (⟨h.val * 16 + l.val, by
        have h1 := h.isLt
        have h2 := l.isLt
        omega⟩ :: bs)
    | _, _, _ => none

/-- `<Locator as FromStr>::from_str`: hex-decode then `deserialize`. -/
def Locator.fromStr (s : List Char) : Option Locator :=
  match hexDecode s with
  | none => none
  | some raw => Locator.deserialize raw

/-- `<Locator as Display>::fmt`: hex encoding of the serialization. -/
def Locator.display (l : Locator) : List Char :=
  hexEncode (Locator.serialize l)

/-- `Appointment` from `teos-common/src/appointment.rs`. -/
structure Appointment where
  locator : Locator
  encrypted_blob : List Byte
  to_self_delay : Fin (2 ^ 32)
  deriving DecidableEq

/-- `Appointment::new`. -/
def Appointment.new (locator : Locator) (encrypted_blob : List Byte)
    (to_self_delay : Fin (2 ^ 32)) : Appointment :=
  { locator := locator, encrypted_blob := encrypted_blob, to_self_delay := to_self_delay }

/-- `u32::to_be_bytes`: big-endian 4-byte encoding. -/
def u32ToBeBytes (n : Fin (2 ^ 32)) : List Byte :=
  [⟨n.val / 2 ^ 24 % 256, Nat.mod_lt _ (by norm_num)⟩,
   ⟨n.val / 2 ^ 16 % 256, Nat.mod_lt _ (by norm_num)⟩,
   ⟨n.val / 2 ^ 8 % 256, Nat.mod_lt _ (by norm_num)⟩,
   ⟨n.val % 256, Nat.mod_lt _ (by norm_num)⟩]

/-- `Appointment::serialize`: `locator || encrypted_blob || to_self_delay`,
`to_self_delay` big endian. -/
def Appointment.serialize (a : Appointment) : List Byte :=
  Locator.serialize a.locator ++ a.encrypted_blob ++ u32ToBeBytes a.to_self_delay

/-- `AppointmentStatus` from `teos-common/src/appointment.rs`. -/
inductive AppointmentStatus where
  | NotFound
  | BeingWatched
  | DisputeResponded
  deriving DecidableEq

/-- `<AppointmentStatus as From<i32>>::from`. -/
def AppointmentStatus.ofI32 (x : Int) : AppointmentStatus :=
  if x = 1 then AppointmentStatus.BeingWatched
  else if x = 2 then AppointmentStatus.DisputeResponded
  else AppointmentStatus.NotFound

/-- `<AppointmentStatus as FromStr>::from_str`. -/
def AppointmentStatus.fromStr (s : String) : Except String AppointmentStatus :=
  if s = "being_watched" then Except.ok AppointmentStatus.BeingWatched
  else if s = "dispute_responded" then Except.ok AppointmentStatus.DisputeResponded
  else if s = "not_found" then Except.ok AppointmentStatus.NotFound
  else Except.error ("Unknown status: " ++ s)

/-- `<AppointmentStatus as Display>::fmt`. -/
def AppointmentStatus.display : AppointmentStatus → String
  | AppointmentStatus.BeingWatched => "being_watched"
  | AppointmentStatus.DisputeResponded => "dispute_responded"
  | AppointmentStatus.NotFound => "not_found"

/-! ## Cryptography (`teos_common::cryptography`)

The `cryptography` module of `teos-common` is not among the sources; only
its callers are (`watchtower-plugin/src/main.rs`, the tower tests). The
definitions below are modelled from the spec. -/

/-- XOR of two bytes. -/
def xorByte (a b : Byte) : Byte :=
  ⟨a.val ^^^ b.val, by
    have ha : a.val < 2 ^ 8 := lt_of_lt_of_le a.isLt (by norm_num)
    have hb : b.val < 2 ^ 8 := lt_of_lt_of_le b.isLt (by norm_num)
    have h := Nat.xor_lt_two_pow ha hb
    omega⟩

/-- Masks a byte string with the keystream derived from a 32-byte key,
starting at stream position `i` (the key bytes repeat cyclically). -/
def maskFrom (key : Txid) (i : Nat) : List Byte → List Byte
  | [] => []
  | b :: bs => xorByte b (key.val.getD (i % 32) ⟨0, by norm_num⟩) :: maskFrom key (i + 1) bs

namespace cryptography

/-- Modelled from the spec: `teos_common::cryptography::encrypt`. The spec
(§3, §8) describes a symmetric authenticated encryption of the penalty
transaction under a key equal to the full 32-byte breaching transaction
id, such that decryption with the matching key reproduces the plaintext
exactly and decryption with any other key fails. The authenticator is
idealized as a 32-byte key-commitment tag prepended to the masked body:
a decryption attempt succeeds exactly when its key matches the
encryption key. -/
def encrypt (penaltyTx : List Byte) (key : Txid) : List Byte :=
  key.val ++ maskFrom key 0 penaltyTx

/-- Modelled from the spec: `teos_common::cryptography::decrypt`. Checks
the authenticator against the supplied key and, only on a match, unmasks
the body; any other key yields a decryption failure (`none`). -/
def decrypt (ciphertext : List Byte) (key : Txid) : Option (List Byte) :=
  if ciphertext.take 32 = key.val then some (maskFrom key 0 (ciphertext.drop 32))
  else none

end cryptography

/-- The appointment built by `on_commitment_revocation` in
`watchtower-plugin/src/main.rs`: locator from the commitment (dispute)
txid, blob encrypted under the full commitment txid, and `to_self_delay`
hardcoded to 42. -/
def onCommitmentRevocationAppointment (commitment_txid : Txid)
    (penalty_tx : List Byte) : Appointment :=
  Appointment.new (Locator.new commitment_txid)
    (cryptography.encrypt penalty_tx commitment_txid) ⟨42, by norm_num⟩

/-! ## Block events and the listener tuple (`teos/src/startup.rs`)

`run` wires the chain monitor's listener as the nested tuple
`(watcher, (responder, gatekeeper))` (startup.rs line 145); the
`lightning::chain::Listen` implementation for a pair invokes the first
component and then the second on every event. -/

/-- A block, as far as the listeners are concerned: the ids of its
transactions. -/
abbrev Block := List Txid

/-- The `lightning::chain::Listen` interface over a shared state `σ`:
a handler for connected and for disconnected blocks. -/
structure Listen (σ : Type) where
  blockConnected : σ → Block → σ
  blockDisconnected : σ → Block → σ

/-- The `Listen` implementation for a pair `(a, b)`: `a` handles the
event first, then `b` handles the same event. -/
def Listen.pair {σ : Type} (a b : Listen σ) : Listen σ where
  blockConnected := fun s blk => b.blockConnected (a.blockConnected s blk) blk
  blockDisconnected := fun s blk => b.blockDisconnected (a.blockDisconnected s blk) blk

/-- The three chain listeners of the tower. -/
inductive ListenerId where
  | watcher
  | responder
  | gatekeeper
  deriving DecidableEq

/-- A listener that records its own invocation in a shared trace. -/
def tracingListener (id : ListenerId) : Listen (List ListenerId) where
  blockConnected := fun tr _ => tr ++ [id]
  blockDisconnected := fun tr _ => tr ++ [id]

/-- `let listener = &(watcher.clone(), &(responder, gatekeeper));`
(startup.rs line 145), with each component recording its invocation. -/
def towerListener : Listen (List ListenerId) :=
  Listen.pair (tracingListener ListenerId.watcher)
    (Listen.pair (tracingListener ListenerId.responder)
      (tracingListener ListenerId.gatekeeper))

/-- A chain event: `true` tags a connected block, `false` a disconnected
one. -/
abbrev ChainEvent := Bool × Block

/-- Dispatches a sequence of chain events to a listener, synchronously
and in order. -/
def dispatchEvents {σ : Type} (l : Listen σ) (s : σ) : List ChainEvent → σ
  | [] => s
  | (connected, blk) :: rest =>
    dispatchEvents l
      (if connected then l.blockConnected s blk else l.blockDisconnected s blk) rest

/-! ## Startup (`teos/src/startup.rs`) -/

/-- The poll interface used by `get_last_n_blocks`
(`lightning_block_sync::poll::ChainPoller`), over header type `H` and
block type `B`; fallible calls return `Option` (`unwrap` in the source). -/
structure ChainPollerM (H B : Type) where
  fetchBlock : H → Option B
  lookUpPreviousHeader : H → Option H

/-- `get_last_n_blocks(poller, last_known_block, n)` (startup.rs lines
34-54): fetch the block at the current header, step to the previous
header, repeat `n` times; `none` models the panic of an `unwrap` on a
failed poll. -/
def get_last_n_blocks {H B : Type} (poller : ChainPollerM H B) (last_known_block : H) :
    Nat → Option (List B)
  | 0 => some []
  | n + 1 =>
    match poller.fetchBlock last_known_block,
        poller.lookUpPreviousHeader last_known_block with
    | some block, some prev =>
      match get_last_n_blocks poller prev n with
      | some rest => some (block :: rest)
      | none => none
    | _, _ => none

/-- The header reached from `h` by stepping back `i` times through
`lookUpPreviousHeader`. -/
def headerBack {H B : Type} (poller : ChainPollerM H B) (h : H) : Nat → Option H
  | 0 => some h
  | i + 1 =>
    match poller.lookUpPreviousHeader h with
    | some prev => headerBack poller prev i
    | none => none

/-- The operations of `startup::run` that matter for ordering, one per
step of its straight-line body. -/
inductive StartupStep where
  | initBitcoindClient
  | validateBestBlockHeader
  | replayLastNBlocks (n : Nat)
  | buildGatekeeper
  | buildResponder
  | buildWatcher
  | buildChainMonitor
  | pollBestTip
  | servePrivateApi
  | servePublicApi
  | serveHttpApi
  | serveTor
  | monitorChain
  deriving DecidableEq

/-- Whether a startup step starts an externally reachable API interface. -/
def StartupStep.startsInterface : StartupStep → Bool
  | StartupStep.servePrivateApi => true
  | StartupStep.servePublicApi => true
  | StartupStep.serveHttpApi => true
  | StartupStep.serveTor => true
  | _ => false

/-- The straight-line order of `startup::run` (startup.rs lines 56-232):
bitcoind client, best-header validation, `get_last_n_blocks(.., 6)`,
component construction, one `poll_best_tip`, then the API interfaces and
the steady-state chain monitor. -/
def runStartupSequence : List StartupStep :=
  [StartupStep.initBitcoindClient,
   StartupStep.validateBestBlockHeader,
   StartupStep.replayLastNBlocks 6,
   StartupStep.buildGatekeeper,
   StartupStep.buildResponder,
   StartupStep.buildWatcher,
   StartupStep.buildChainMonitor,
   StartupStep.pollBestTip,
   StartupStep.servePrivateApi,
   StartupStep.servePublicApi,
   StartupStep.serveHttpApi,
   StartupStep.serveTor,
   StartupStep.monitorChain]

/-! ## Plugin database (`watchtower-plugin/src/dbm.rs`)

The plugin's SQLite store, restricted to the tables touched by
`store_accepted_appointment`: `towers` (primary key `tower_id`) and
`accepted_appointments` (primary key `locator`, foreign key `tower_id`
referencing `towers`). `rusqlite` transactions are embedded explicitly:
each `execute` acts on the journal state, and the journal becomes durable
only at `commit`; an early return drops the journal (rollback). -/

/-- A user/tower identifier (a compressed secp256k1 public key in the
source), modelled as an opaque id. -/
abbrev UserId := Nat

/-- A row of the `towers` table (without its `tower_id` key). -/
structure TowerRow where
  net_addr : String
  available_slots : Nat
  subscription_expiry : Nat
  deriving DecidableEq

/-- A row of the `accepted_appointments` table (without its `locator`
key): tower id, start block and tower signature. -/
structure AcceptedRow where
  tower_id : UserId
  start_block : Nat
  tower_signature : String
  deriving DecidableEq

/-- Looks up the row stored under a key, if any (a `SELECT` by primary
key). -/
def assocLookup {κ ν : Type} [DecidableEq κ] : List (κ × ν) → κ → Option ν
  | [], _ => none
  | (k, v) :: rest, key => if k = key then some v else assocLookup rest key

/-- Applies `f` to every row whose key matches (an `UPDATE ... WHERE` on
the key). -/
def assocModify {κ ν : Type} [DecidableEq κ] (m : List (κ × ν)) (key : κ) (f : ν → ν) :
    List (κ × ν) :=
  match m with
  | [] => []
  | (k, v) :: rest => (if k = key then (k, f v) else (k, v)) :: assocModify rest key f

/-- The plugin database state (the tables relevant to
`store_accepted_appointment`). -/
structure PluginDB where
  towers : List (UserId × TowerRow)
  accepted_appointments : List (Locator × AcceptedRow)
  deriving DecidableEq

/-- The `rusqlite` errors a `tx.execute` of these statements can raise:
a `UNIQUE`/`PRIMARY KEY` conflict or a `FOREIGN KEY` violation. -/
inductive SqliteError where
  | primaryKeyConflict
  | foreignKeyViolation
  deriving DecidableEq

/-- The first `tx.execute` of `store_accepted_appointment`: `INSERT INTO
accepted_appointments (locator, tower_id, start_block, tower_signature)`.
Fails on a duplicate locator (primary key) or an unknown tower (foreign
key, `PRAGMA foreign_keys=1`). -/
def txInsertAcceptedAppointment (db : PluginDB) (tower_id : UserId) (locator : Locator)
    (start_block : Nat) (tower_signature : String) : Except SqliteError PluginDB :=
  if (assocLookup db.accepted_appointments locator).isSome then
    Except.error SqliteError.primaryKeyConflict
  else if (assocLookup db.towers tower_id).isNone then
    Except.error SqliteError.foreignKeyViolation
  else
    Except.ok { db with
      accepted_appointments :=
        (locator, ⟨tower_id, start_block, tower_signature⟩) :: db.accepted_appointments }

/-- The second `tx.execute` of `store_accepted_appointment`: `UPDATE
towers SET available_slots=?1 WHERE tower_id=?2`. -/
def txUpdateTowerSlots (db : PluginDB) (available_slots : Nat) (tower_id : UserId) :
    Except SqliteError PluginDB :=
  Except.ok { db with
    towers := assocModify db.towers tower_id
      (fun row => { row with available_slots := available_slots }) }

/-- `DBM::store_accepted_appointment` (dbm.rs lines 268-291): opens a
transaction, inserts the accepted-appointment row, updates the tower's
`available_slots`, and commits; on any error the transaction is dropped
without commit, so the durable state is returned unchanged. -/
def store_accepted_appointment (conn : PluginDB) (tower_id : UserId) (locator : Locator)
    (start_block : Nat) (tower_signature : String) (available_slots : Nat) :
    Except SqliteError Unit × PluginDB :=
  match txInsertAcceptedAppointment conn tower_id locator start_block tower_signature with
  | Except.error e => (Except.error e, conn)
  | Except.ok tx =>
    match txUpdateTowerSlots tx available_slots tower_id with
    | Except.error e => (Except.error e, conn)
    | Except.ok tx2 => (Except.ok (), tx2)

/-! ## Tower-side API admission (spec-modelled)

The tower's HTTP/gRPC handlers, the Watcher and the Gatekeeper are not
among the sources (only their end-to-end test
`teos/tests/end_to_end_client_test.rs` is). The admission behavior below
is modelled from the spec (§4.1, §6, §7) and the error contents asserted
by `test_command_non_registered`. -/

/-- A Gatekeeper subscription (spec §3). -/
structure Subscription where
  available_slots : Nat
  subscription_expiry : Nat
  deriving DecidableEq

/-- Modelled from the spec: the tower state visible to the API handlers —
the Gatekeeper's subscription table and the Watcher's appointment index. -/
structure TowerState where
  subscriptions : List (UserId × Subscription)
  appointments : List (Locator × (UserId × Appointment))
  deriving DecidableEq

/-- A request signature, modelled by what public key it validly recovers
to (`none` for garbage that recovers nothing). -/
abbrev RequestSignature := Option UserId

/-- The stable error payload of the public API (§7): a message and an
error code. -/
structure ApiError where
  error : String
  error_code : Nat
  deriving DecidableEq

/-- Modelled from the spec: signature-based authentication. The user a
signature recovers to is authenticated exactly when it is registered
(has a subscription). -/
def authenticateUser (st : TowerState) (sig : RequestSignature) : Option UserId :=
  match sig with
  | none => none
  | some user => if (assocLookup st.subscriptions user).isSome then some user else none

/-- Modelled from the spec: the `get_appointment` handler. An
unauthenticated caller is rejected with error code 7 and the state is
untouched; an authenticated caller gets their appointment, if stored. -/
def handleGetAppointment (st : TowerState) (locator : Locator) (sig : RequestSignature) :
    Except ApiError Appointment × TowerState :=
  match authenticateUser st sig with
  | none => (Except.error ⟨"User cannot be authenticated", 7⟩, st)
  | some user =>
    match assocLookup st.appointments locator with
    | some (owner, appointment) =>
      if owner = user then (Except.ok appointment, st)
      else (Except.error ⟨"Appointment not found", 9⟩, st)
    | none => (Except.error ⟨"Appointment not found", 9⟩, st)

/-- Modelled from the spec: the `get_subscription_info` handler. -/
def handleGetSubscriptionInfo (st : TowerState) (sig : RequestSignature) :
    Except ApiError Subscription × TowerState :=
  match sig with
  | none => (Except.error ⟨"User not found. Have you registered?", 7⟩, st)
  | some user =>
    match assocLookup st.subscriptions user with
    | none => (Except.error ⟨"User not found. Have you registered?", 7⟩, st)
    | some sub => (Except.ok sub, st)

/-- The slot size unit: an appointment costs `ceil(blob_size /
slot_size)` slots (spec §3). -/
def slotCost (slot_size : Nat) (a : Appointment) : Nat :=
  (a.encrypted_blob.length + slot_size - 1) / slot_size

/-- Modelled from the spec: the `add_appointment` handler (§4.1
`authenticate_and_admit`): authenticate, check slots and expiry, reserve
the slots and store the appointment, returning the acceptance height. -/
def handleAddAppointment (st : TowerState) (a : Appointment) (sig : RequestSignature)
    (current_height slot_size : Nat) : Except ApiError Nat × TowerState :=
  match authenticateUser st sig with
  | none => (Except.error ⟨"User cannot be authenticated", 7⟩, st)
  | some user =>
    match assocLookup st.subscriptions user with
    | none => (Except.error ⟨"User cannot be authenticated", 7⟩, st)
    | some sub =>
      if sub.subscription_expiry ≤ current_height then
        (Except.error ⟨"Subscription expired", 8⟩, st)
      else if sub.available_slots < slotCost slot_size a then
        (Except.error ⟨"Not enough slots", 8⟩, st)
      else
        (Except.ok current_height,
         { st with
           subscriptions := assocModify st.subscriptions user
             (fun s => { s with available_slots := s.available_slots - slotCost slot_size a }),
           appointments := (a.locator, (user, a)) :: st.appointments })

/-! ## Helper lemmas -/

theorem hexDigitVal_digitChar : ∀ d : Fin 16, hexDigitVal (Nat.digitChar d.val) = some d := by
  decide

theorem hexDecode_hexEncode (bs : List Byte) : hexDecode (hexEncode bs) = some bs := by
  induction bs with
  | nil => rfl
  | cons b bs ih =>
    have hhi : b.val / 16 < 16 := by have := b.isLt; omega
    have hlo : b.val % 16 < 16 := by have := b.isLt; omega
    have e1 := hexDigitVal_digitChar ⟨b.val / 16, hhi⟩
    have e2 := hexDigitVal_digitChar ⟨b.val % 16, hlo⟩
    simp only [hexEncode, hexDecode, e1, e2, ih]
    congr 1
    apply List.cons_eq_cons.mpr
    refine ⟨?_, rfl⟩
    apply Fin.ext
    simp
    omega

/-- A concrete all-zero transaction id, for witnesses. -/
def txidZero : Txid := ⟨List.replicate 32 ⟨0, by norm_num⟩, by simp⟩

/-- A concrete all-one transaction id, for witnesses. -/
def txidOne : Txid := ⟨List.replicate 32 ⟨1, by norm_num⟩, by simp⟩

/-! ## Claim theorems -/

/-- C1: for every 32-byte transaction id `T`, `Locator::new(T)` is exactly
the first 16 bytes of `T`, and the construction is a pure, deterministic
truncation: any txid with the same bytes yields the same locator. -/
theorem locator_new_is_truncation (t : Txid) :
    Locator.serialize (Locator.new t) = t.val.take 16 ∧
    ∀ t' : Txid, t'.val = t.val → Locator.new t' = Locator.new t := by
  constructor
  · rfl
  · intro t' h
    apply Subtype.ext
    simp [Locator.new, h]

/-- C1 witness: evaluated on the all-zero txid. -/
theorem locator_new_is_truncation_witness :
    Locator.serialize (Locator.new txidZero) = txidZero.val.take 16 ∧
    Locator.new txidZero = Locator.new txidZero :=
  ⟨(locator_new_is_truncation txidZero).1,
   (locator_new_is_truncation txidZero).2 txidZero rfl⟩

/-- C8: `Locator` round-trips through both encodings: `deserialize ∘
serialize` is the identity, `from_str` of the hex display is the
identity, and `deserialize` succeeds exactly on 16-byte inputs. -/
theorem locator_roundtrips :
    (∀ l : Locator, Locator.deserialize (Locator.serialize l) = some l) ∧
    (∀ l : Locator, Locator.fromStr (Locator.display l) = some l) ∧
    (∀ data : List Byte, (Locator.deserialize data).isSome ↔ data.length = 16) := by
  refine ⟨?_, ?_, ?_⟩
  · intro l
    simp [Locator.deserialize, Locator.serialize, l.property]
  · intro l
    simp [Locator.fromStr, Locator.display, hexDecode_hexEncode,
      Locator.serialize, Locator.deserialize, l.property]
  · intro data
    unfold Locator.deserialize LOCATOR_LEN
    split <;> simp_all

/-- C9: `AppointmentStatus` conversions are consistent: `From<i32>` maps
`1` to `BeingWatched`, `2` to `DisputeResponded` and anything else to
`NotFound`, and `FromStr` inverts `Display` on all three states. -/
theorem appointment_status_conversions :
    AppointmentStatus.ofI32 1 = AppointmentStatus.BeingWatched ∧
    AppointmentStatus.ofI32 2 = AppointmentStatus.DisputeResponded ∧
    (∀ x : Int, x ≠ 1 → x ≠ 2 → AppointmentStatus.ofI32 x = AppointmentStatus.NotFound) ∧
    (∀ s : AppointmentStatus,
        AppointmentStatus.fromStr (AppointmentStatus.display s) = Except.ok s) := by
  refine ⟨rfl, rfl, ?_, ?_⟩
  · intro x h1 h2
    simp [AppointmentStatus.ofI32, h1, h2]
  · intro s
    cases s <;> rfl

/-- C9 witness: the catch-all branch evaluated at `5`, and the
display/parse round-trip at `BeingWatched`. -/
theorem appointment_status_conversions_witness :
    AppointmentStatus.ofI32 5 = AppointmentStatus.NotFound ∧
    AppointmentStatus.fromStr (AppointmentStatus.display AppointmentStatus.BeingWatched) =
      Except.ok AppointmentStatus.BeingWatched :=
  ⟨appointment_status_conversions.2.2.1 5 (by decide) (by decide),
   appointment_status_conversions.2.2.2 AppointmentStatus.BeingWatched⟩

theorem u32ToBeBytes_inj (n m : Fin (2 ^ 32)) (h : u32ToBeBytes n = u32ToBeBytes m) : n = m := by
  simp only [u32ToBeBytes, List.cons.injEq, Fin.mk.injEq, and_true] at h
  obtain ⟨h1, h2, h3, h4⟩ := h
  have hn := n.isLt
  have hm := m.isLt
  apply Fin.ext
  norm_num at hn hm h1 h2 h3 ⊢
  omega

/-- C10: `Appointment::serialize` is `locator || encrypted_blob ||
to_self_delay (4 bytes, big endian)`; its length is `20 + blob length`;
and it is injective. -/
theorem appointment_serialize_spec :
    (∀ a : Appointment, Appointment.serialize a =
        Locator.serialize a.locator ++ a.encrypted_blob ++ u32ToBeBytes a.to_self_delay) ∧
    (∀ a : Appointment, (Appointment.serialize a).length = 20 + a.encrypted_blob.length) ∧
    (∀ a b : Appointment, Appointment.serialize a = Appointment.serialize b → a = b) := by
  refine ⟨fun _ => rfl, ?_, ?_⟩
  · intro a
    simp [Appointment.serialize, Locator.serialize, u32ToBeBytes, a.locator.property,
      LOCATOR_LEN]
    omega
  · intro a b h
    unfold Appointment.serialize at h
    rw [List.append_assoc, List.append_assoc] at h
    have hl : (Locator.serialize a.locator).length = (Locator.serialize b.locator).length := by
      simp [Locator.serialize, a.locator.property, b.locator.property]
    obtain ⟨hloc, hrest⟩ := List.append_inj h hl
    have hbe : (u32ToBeBytes a.to_self_delay).length = (u32ToBeBytes b.to_self_delay).length := by
      simp [u32ToBeBytes]
    obtain ⟨hblob, hbytes⟩ := List.append_inj' hrest hbe
    have hdelay := u32ToBeBytes_inj _ _ hbytes
    obtain ⟨la, ba, da⟩ := a
    obtain ⟨lb, bb, db⟩ := b
    simp only [Appointment.mk.injEq]
    exact ⟨Subtype.ext hloc, hblob, hdelay⟩

/-- A concrete appointment, for witnesses. -/
def demoAppointment : Appointment :=
  Appointment.new (Locator.new txidZero) [⟨7, by norm_num⟩] ⟨42, by norm_num⟩

/-- C10 witness: length and injectivity evaluated on a concrete
appointment with a 1-byte blob. -/
theorem appointment_serialize_spec_witness :
    (Appointment.serialize demoAppointment).length = 20 + 1 ∧ demoAppointment = demoAppointment :=
  ⟨appointment_serialize_spec.2.1 demoAppointment,
   appointment_serialize_spec.2.2 demoAppointment demoAppointment rfl⟩

theorem xorByte_cancel (b k : Byte) : xorByte (xorByte b k) k = b := by
  apply Fin.ext
  simp only [xorByte]
  exact Nat.xor_cancel_right _ _

theorem maskFrom_involutive (key : Txid) (p : List Byte) :
    ∀ i : Nat, maskFrom key i (maskFrom key i p) = p := by
  induction p with
  | nil => intro i; rfl
  | cons b bs ih =>
    intro i
    simp only [maskFrom, xorByte_cancel, List.cons.injEq, true_and]
    exact ih (i + 1)

theorem decrypt_encrypt_self (p : List Byte) (t : Txid) :
    cryptography.decrypt (cryptography.encrypt p t) t = some p := by
  unfold cryptography.decrypt cryptography.encrypt
  rw [List.take_left' t.property, List.drop_left' t.property]
  simp [maskFrom_involutive]

theorem decrypt_encrypt_other (p : List Byte) (t k : Txid) (h : k ≠ t) :
    cryptography.decrypt (cryptography.encrypt p t) k = none := by
  unfold cryptography.decrypt cryptography.encrypt
  rw [List.take_left' t.property]
  have hne : t.val ≠ k.val := fun hv => h (Subtype.ext hv.symm)
  simp [hne]

/-- C2: decrypting `encrypt(P, key=T)` with `T` returns exactly `P`, and
decrypting it with any key `K ≠ T` fails rather than silently producing
a wrong plaintext. -/
theorem encryption_roundtrip_and_authentication (p : List Byte) (t k : Txid) :
    cryptography.decrypt (cryptography.encrypt p t) t = some p ∧
    (k ≠ t → cryptography.decrypt (cryptography.encrypt p t) k = none) :=
  ⟨decrypt_encrypt_self p t, decrypt_encrypt_other p t k⟩

/-- C2 witness: a concrete 2-byte penalty transaction encrypted under the
all-zero txid; decryption under the all-one txid fails. -/
theorem encryption_roundtrip_and_authentication_witness :
    cryptography.decrypt
        (cryptography.encrypt [⟨222, by norm_num⟩, ⟨173, by norm_num⟩] txidZero) txidZero =
      some [⟨222, by norm_num⟩, ⟨173, by norm_num⟩] ∧
    cryptography.decrypt
        (cryptography.encrypt [⟨222, by norm_num⟩, ⟨173, by norm_num⟩] txidZero) txidOne =
      none :=
  ⟨(encryption_roundtrip_and_authentication [⟨222, by norm_num⟩, ⟨173, by norm_num⟩]
      txidZero txidOne).1,
   (encryption_roundtrip_and_authentication [⟨222, by norm_num⟩, ⟨173, by norm_num⟩]
      txidZero txidOne).2 (by decide)⟩

/-- C6: the appointment built by `on_commitment_revocation` for dispute
txid `D` and penalty `P` has locator equal to the 16-byte truncation of
`D` and blob equal to `P` encrypted under the full `D`; the tower can
decrypt `P` with `D`, and no other key decrypts the blob. -/
theorem on_commitment_revocation_appointment_spec (d : Txid) (p : List Byte) :
    (onCommitmentRevocationAppointment d p).locator.val = d.val.take 16 ∧
    (onCommitmentRevocationAppointment d p).encrypted_blob = cryptography.encrypt p d ∧
    cryptography.decrypt (onCommitmentRevocationAppointment d p).encrypted_blob d = some p ∧
    ∀ k : Txid, k ≠ d →
      cryptography.decrypt (onCommitmentRevocationAppointment d p).encrypted_blob k = none := by
  refine ⟨rfl, rfl, decrypt_encrypt_self p d, ?_⟩
  intro k hk
  exact decrypt_encrypt_other p d k hk

/-- C6 witness: evaluated on the all-one dispute txid with a 1-byte
penalty; the all-zero key fails to decrypt. -/
theorem on_commitment_revocation_appointment_spec_witness :
    (onCommitmentRevocationAppointment txidOne [⟨9, by norm_num⟩]).locator.val =
      txidOne.val.take 16 ∧
    cryptography.decrypt
        (onCommitmentRevocationAppointment txidOne [⟨9, by norm_num⟩]).encrypted_blob txidZero =
      none :=
  ⟨(on_commitment_revocation_appointment_spec txidOne [⟨9, by norm_num⟩]).1,
   (on_commitment_revocation_appointment_spec txidOne [⟨9, by norm_num⟩]).2.2.2 txidZero
     (by decide)⟩

theorem towerListener_connected_trace (tr : List ListenerId) (blk : Block) :
    towerListener.blockConnected tr blk =
      tr ++ [ListenerId.watcher, ListenerId.responder, ListenerId.gatekeeper] := by
  simp [towerListener, Listen.pair, tracingListener]

theorem towerListener_disconnected_trace (tr : List ListenerId) (blk : Block) :
    towerListener.blockDisconnected tr blk =
      tr ++ [ListenerId.watcher, ListenerId.responder, ListenerId.gatekeeper] := by
  simp [towerListener, Listen.pair, tracingListener]

/-- C3: every block event (connected or disconnected) dispatched to the
tower's listener tuple invokes Watcher first, then Responder, then
Gatekeeper, and over any run of events this per-event order is never
permuted. -/
theorem listener_order_watcher_responder_gatekeeper :
    (∀ (tr : List ListenerId) (blk : Block),
        towerListener.blockConnected tr blk =
          tr ++ [ListenerId.watcher, ListenerId.responder, ListenerId.gatekeeper]) ∧
    (∀ (tr : List ListenerId) (blk : Block),
        towerListener.blockDisconnected tr blk =
          tr ++ [ListenerId.watcher, ListenerId.responder, ListenerId.gatekeeper]) ∧
    (∀ (events : List ChainEvent) (tr : List ListenerId),
        dispatchEvents towerListener tr events =
          tr ++ events.flatMap
            (fun _ => [ListenerId.watcher, ListenerId.responder, ListenerId.gatekeeper])) := by
  refine ⟨towerListener_connected_trace, towerListener_disconnected_trace, ?_⟩
  intro events
  induction events with
  | nil => intro tr; simp [dispatchEvents]
  | cons ev rest ih =>
    intro tr
    obtain ⟨connected, blk⟩ := ev
    cases connected <;>
      simp [dispatchEvents, ih, towerListener_connected_trace,
        towerListener_disconnected_trace]

theorem get_last_n_blocks_correct {H B : Type} (poller : ChainPollerM H B) :
    ∀ (n : Nat) (h : H) (bs : List B), get_last_n_blocks poller h n = some bs →
      bs.length = n ∧
      ∀ i, i < n → ∃ hd, headerBack poller h i = some hd ∧ poller.fetchBlock hd = bs[i]? := by
  intro n
  induction n with
  | zero =>
    intro h bs hbs
    simp [get_last_n_blocks] at hbs
    subst hbs
    exact ⟨rfl, by omega⟩
  | succ n ih =>
    intro h bs hbs
    unfold get_last_n_blocks at hbs
    cases hfb : poller.fetchBlock h with
    | none => simp [hfb] at hbs
    | some block =>
      cases hprev : poller.lookUpPreviousHeader h with
      | none => simp [hfb, hprev] at hbs
      | some prev =>
        simp only [hfb, hprev] at hbs
        cases hrest : get_last_n_blocks poller prev n with
        | none => simp [hrest] at hbs
        | some rest =>
          simp only [hrest, Option.some.injEq] at hbs
          subst hbs
          obtain ⟨hlen, helts⟩ := ih prev rest hrest
          constructor
          · simp [hlen]
          · intro i hi
            cases i with
            | zero =>
              exact ⟨h, rfl, by simp [hfb]⟩
            | succ j =>
              have hj : j < n := by omega
              obtain ⟨hd, hhd, hfd⟩ := helts j hj
              refine ⟨hd, ?_, ?_⟩
              · simp [headerBack, hprev, hhd]
              · simpa using hfd

/-- C7: `get_last_n_blocks` returns, on success, exactly `n` blocks
newest-first — element `i` is the block fetched at the header reached by
stepping back `i` times from the start header — and `startup::run`
replays the last 6 blocks and polls the best tip exactly once, before
any API interface is started. -/
theorem startup_replays_last_six_blocks :
    (∀ (H B : Type) (poller : ChainPollerM H B) (n : Nat) (h : H) (bs : List B),
        get_last_n_blocks poller h n = some bs →
          bs.length = n ∧
          ∀ i, i < n → ∃ hd, headerBack poller h i = some hd ∧
            poller.fetchBlock hd = bs[i]?) ∧
    StartupStep.replayLastNBlocks 6 ∈ runStartupSequence ∧
    runStartupSequence.count StartupStep.pollBestTip = 1 ∧
    runStartupSequence.indexOf (StartupStep.replayLastNBlocks 6) <
      runStartupSequence.indexOf StartupStep.pollBestTip ∧
    (∀ s ∈ runStartupSequence, s.startsInterface = true →
        runStartupSequence.indexOf StartupStep.pollBestTip <
          runStartupSequence.indexOf s) := by
  refine ⟨fun H B poller => get_last_n_blocks_correct poller, ?_, ?_, ?_, ?_⟩ <;> decide

/-- A concrete chain poller over `Nat` headers, for witnesses: the block
at header `h` is `100 + h` and headers count down. -/
def demoPoller : ChainPollerM Nat Nat where
  fetchBlock := fun h => some (100 + h)
  lookUpPreviousHeader := fun h => some (h - 1)

/-- C7 witness: three blocks fetched from header 10 are `[110, 109, 108]`
(newest first), and the best-tip poll precedes the HTTP interface. -/
theorem startup_replays_last_six_blocks_witness :
    ([110, 109, 108] : List Nat).length = 3 ∧
    runStartupSequence.indexOf StartupStep.pollBestTip <
      runStartupSequence.indexOf StartupStep.serveHttpApi :=
  ⟨(startup_replays_last_six_blocks.1 Nat Nat demoPoller 3 10 [110, 109, 108] (by decide)).1,
   startup_replays_last_six_blocks.2.2.2.2 StartupStep.serveHttpApi (by decide) (by decide)⟩

theorem assocLookup_assocModify_self {κ ν : Type} [DecidableEq κ]
    (m : List (κ × ν)) (key : κ) (f : ν → ν) :
    assocLookup (assocModify m key f) key = (assocLookup m key).map f := by
  induction m with
  | nil => rfl
  | cons p rest ih =>
    obtain ⟨k, v⟩ := p
    rw [assocModify]
    by_cases hk : k = key
    · rw [if_pos hk, assocLookup, assocLookup, if_pos hk, if_pos hk]
      rfl
    · rw [if_neg hk, assocLookup, assocLookup, if_neg hk, if_neg hk, ih]

/-- C4: `store_accepted_appointment` is atomic: on any error neither the
accepted-appointment record nor the tower's slot count changes, and on
success both the record insertion and the `available_slots` update are
applied. -/
theorem store_accepted_appointment_atomic (conn : PluginDB) (tower_id : UserId)
    (locator : Locator) (start_block : Nat) (tower_signature : String)
    (available_slots : Nat) :
    (∀ e, (store_accepted_appointment conn tower_id locator start_block tower_signature
            available_slots).fst = Except.error e →
        (store_accepted_appointment conn tower_id locator start_block tower_signature
            available_slots).snd = conn) ∧
    ((store_accepted_appointment conn tower_id locator start_block tower_signature
            available_slots).fst = Except.ok () →
        (store_accepted_appointment conn tower_id locator start_block tower_signature
            available_slots).snd.accepted_appointments =
          (locator, ⟨tower_id, start_block, tower_signature⟩) :: conn.accepted_appointments ∧
        ∃ row, assocLookup conn.towers tower_id = some row ∧
          assocLookup (store_accepted_appointment conn tower_id locator start_block
              tower_signature available_slots).snd.towers tower_id =
            some { row with available_slots := available_slots }) := by
  unfold store_accepted_appointment txInsertAcceptedAppointment txUpdateTowerSlots
  by_cases hdup : (assocLookup conn.accepted_appointments locator).isSome
  · simp [hdup]
  · cases hrow : assocLookup conn.towers tower_id with
    | none => simp [hdup, hrow]
    | some row =>
      have htow : (assocLookup conn.towers tower_id).isNone = false := by simp [hrow]
      simp only [hdup, htow]
      refine ⟨by intro e he; simp at he, fun _ => ⟨rfl, row, rfl, ?_⟩⟩
      simp [assocLookup_assocModify_self, hrow]

/-- A concrete plugin database with one registered tower, for witnesses. -/
def demoTowerDB : PluginDB where
  towers := [(1, ⟨"talk.example:9814", 10, 700⟩)]
  accepted_appointments := []

/-- C4 witness: a successful call on a one-tower database inserts the
record and updates the slot count. -/
theorem store_accepted_appointment_atomic_witness :
    (store_accepted_appointment demoTowerDB 1 (Locator.new txidZero) 100 "sig"
        9).snd.accepted_appointments =
      (Locator.new txidZero, ⟨1, 100, "sig"⟩) :: demoTowerDB.accepted_appointments ∧
    ∃ row, assocLookup demoTowerDB.towers 1 = some row ∧
      assocLookup (store_accepted_appointment demoTowerDB 1 (Locator.new txidZero) 100 "sig"
          9).snd.towers 1 =
        some { row with available_slots := 9 } :=
  (store_accepted_appointment_atomic demoTowerDB 1 (Locator.new txidZero) 100 "sig" 9).2 rfl

/-- C5: a request whose signature does not authenticate a registered user
(`add_appointment`, `get_appointment`, `get_subscription_info`) fails
synchronously with error code 7 and leaves the tower state unchanged. -/
theorem unauthenticated_requests_rejected (st : TowerState) (locator : Locator)
    (a : Appointment) (sig : RequestSignature) (current_height slot_size : Nat)
    (hauth : authenticateUser st sig = none) :
    handleGetAppointment st locator sig =
      (Except.error ⟨"User cannot be authenticated", 7⟩, st) ∧
    handleGetSubscriptionInfo st sig =
      (Except.error ⟨"User not found. Have you registered?", 7⟩, st) ∧
    handleAddAppointment st a sig current_height slot_size =
      (Except.error ⟨"User cannot be authenticated", 7⟩, st) := by
  refine ⟨?_, ?_, ?_⟩
  · simp [handleGetAppointment, hauth]
  · unfold handleGetSubscriptionInfo
    cases sig with
    | none => rfl
    | some user =>
      cases hsub : assocLookup st.subscriptions user with
      | none => simp [hsub]
      | some sub =>
        exfalso
        unfold authenticateUser at hauth
        simp [hsub] at hauth
  · simp [handleAddAppointment, hauth]

/-- C5 witness: the three handlers evaluated on an empty tower state with
a signature recovering the unregistered user `3`. -/
theorem unauthenticated_requests_rejected_witness :
    handleGetAppointment ⟨[], []⟩ (Locator.new txidZero) (some 3) =
      (Except.error ⟨"User cannot be authenticated", 7⟩, ⟨[], []⟩) ∧
    handleGetSubscriptionInfo ⟨[], []⟩ (some 3) =
      (Except.error ⟨"User not found. Have you registered?", 7⟩, ⟨[], []⟩) ∧
    handleAddAppointment ⟨[], []⟩ demoAppointment (some 3) 50 4096 =
      (Except.error ⟨"User cannot be authenticated", 7⟩, ⟨[], []⟩) :=
  unauthenticated_requests_rejected ⟨[], []⟩ (Locator.new txidZero) demoAppointment
    (some 3) 50 4096 rfl
